import Mathlib

/-!
# Verification of the sqlite-rest schema-driven query engine

Shallow embedding of `cmd/sqlite-rest/main.go`.  The Go handlers build SQL
text, bind string arguments, hand both to SQLite and decode the resulting
rows; we embed the Go construction code directly and model the relevant
fragment of SQLite execution semantics (equality comparison of a stored
value against a text-typed bound parameter under the value's natural
affinity, the parse of the interpolated ORDER BY term with its optional
ASC/DESC direction, `LIMIT`/`OFFSET`) as executable Lean functions.
-/

namespace SqliteRest

/-- A native value surfaced by the database driver for one column of one
row.  The go-sqlite3 driver scans INTEGER storage to `int64` (`intV`),
REAL storage to `float64` (`floatV`, carried as its exact rational value:
every finite IEEE double is a rational and the Go code never inspects the
payload), TEXT and BLOB storage to `[]byte` (`bytesV`, carried as the
string `string(b)` since the only operation the Go code performs on the
bytes is that conversion), and NULL to `nil` (`nullV`). -/
inductive DBValue where
  | intV (i : Int)
  | floatV (q : ℚ)
  | bytesV (s : String)
  | nullV
deriving DecidableEq, Repr

/-- A JSON scalar as produced by the row-decoding loop and serialized by
`c.JSON`. -/
inductive JSONValue where
  | num (i : Int)
  | fnum (q : ℚ)
  | str (s : String)
  | null
deriving DecidableEq, Repr

/-- One database row: column name to native value, in the column order of
the result set. -/
abbrev Row := List (String × DBValue)

/-- `ColumnInfo` from main.go: one `PRAGMA table_info` row. -/
structure ColumnInfo where
  name : String
  type : String
  notNull : Bool
  primaryKey : Bool
deriving DecidableEq, Repr

/-- `TableInfo` from main.go: a discovered table and its columns. -/
structure TableInfo where
  name : String
  columns : List ColumnInfo
deriving DecidableEq, Repr

/-- A table as stored in the database: its catalog description plus its
rows (each row keyed by the table's column names). -/
structure DBTable where
  info : TableInfo
  rows : List Row
deriving DecidableEq, Repr

/-- The column-name list of a table, in declaration order (`rows.Columns()`
for a `SELECT *` returns exactly this). -/
def columnNames (t : TableInfo) : List String :=
  t.columns.map (fun c => c.name)

/-! ## URL query parameters

Go's `c.Request.URL.Query()` is a `url.Values`: a map from key to a
non-empty slice of values.  We model it as an association list; map
iteration order in Go is unspecified, the list order stands in for one
iteration order.  `c.Query k` returns the first value of `k`, or `""`
when `k` is absent. -/

abbrev QueryParams := List (String × List String)

/-- Go `url.Values.Get` / gin `c.Query`: first value of the key, `""` if
the key is absent or has no values. -/
def getQueryParam (ps : QueryParams) (k : String) : String :=
  match ps.find? (fun p => p.1 = k) with
  | some (_, v :: _) => v
  | _ => ""

/-! ## Go `strconv.Atoi` -/

/-- Value of a non-empty all-digit string, most significant digit first. -/
def digitsVal (ds : List Char) : Nat :=
  ds.foldl (fun a c => a * 10 + (c.toNat - 48)) 0

/-- Go's `strconv.Atoi`: optional sign, then one or more ASCII digits
making up the whole string; the result must fit in a signed 64-bit `int`
(out of range is an error, and the Go code treats any error as
"unparseable"). -/
def atoi (s : String) : Option Int :=
  let cs := s.toList
  let signed : Int × List Char :=
    match cs with
    | '+' :: rest => (1, rest)
    | '-' :: rest => (-1, rest)
    | _ => (1, cs)
  match signed with
  | (sign, ds) =>
    if ds = [] then none
    else if ds.all (fun c => c.isDigit) then
      let v : Int := sign * (digitsVal ds : Int)
      if -(2 ^ 63) ≤ v ∧ v ≤ 2 ^ 63 - 1 then some v else none
    else none

/-! ## Pagination (main.go lines 238-250) -/

/-- Effective `limit`: starts at 100; a non-empty `limit` parameter that
parses as an integer strictly greater than 0 overrides it. -/
def effectiveLimit (ps : QueryParams) : Int :=
  if getQueryParam ps "limit" = "" then 100
  else
    match atoi (getQueryParam ps "limit") with
    | some l => if 0 < l then l else 100
    | none => 100

/-- Effective `offset`: starts at 0; a non-empty `offset` parameter that
parses as an integer greater than or equal to 0 overrides it. -/
def effectiveOffset (ps : QueryParams) : Int :=
  if getQueryParam ps "offset" = "" then 0
  else
    match atoi (getQueryParam ps "offset") with
    | some o => if 0 ≤ o then o else 0
    | none => 0

/-! ## Filter construction (main.go lines 264-283)

The handler iterates over all raw query parameters; every key other than
`limit`, `offset`, `order` contributes the condition text `<key> = ?` and
binds the key's first value (`values[0]`) as a query argument.  A parsed
`url.Values` never maps a key to an empty slice, so the `[]` case below is
unreachable for real requests. -/

/-- The (column, bound value) pairs extracted from the raw parameters:
reserved keys dropped, first value kept. -/
def filterParams (ps : QueryParams) : List (String × String) :=
  ps.filterMap fun p =>
    if p.1 = "limit" ∨ p.1 = "offset" ∨ p.1 = "order" then none
    else
      match p.2 with
      | [] => none
      | v :: _ => some (p.1, v)

/-- The `whereConditions` slice: one `<key> = ?` fragment per filter. -/
def whereConditions (ps : QueryParams) : List String :=
  (filterParams ps).map (fun f => f.1 ++ " = ?")

/-- The bound query arguments, aligned with `whereConditions`. -/
def queryArgs (ps : QueryParams) : List String :=
  (filterParams ps).map (fun f => f.2)

/-- The WHERE clause appended to the query text: empty when there are no
conditions, otherwise the conditions joined with " AND ". -/
def whereClause (ps : QueryParams) : String :=
  if whereConditions ps = [] then ""
  else " WHERE " ++ String.intercalate " AND " (whereConditions ps)

/-- The ORDER BY clause (main.go lines 277-280): present exactly when the
`order` parameter is non-empty, interpolating the raw parameter value. -/
def orderClause (ps : QueryParams) : String :=
  if getQueryParam ps "order" = "" then ""
  else " ORDER BY " ++ getQueryParam ps "order"

/-- The full SQL text built by `handleTableQuery` (main.go lines 261-283). -/
def listQuerySQL (tableName : String) (ps : QueryParams) : String :=
  "SELECT * FROM " ++ tableName ++ whereClause ps ++ orderClause ps
    ++ " LIMIT " ++ toString (effectiveLimit ps)
    ++ " OFFSET " ++ toString (effectiveOffset ps)

/-- The SQL text built by `handleRecordQuery` (main.go line 339). -/
def recordQuerySQL (tableName : String) : String :=
  "SELECT * FROM " ++ tableName ++ " WHERE id = ?"

/-! ## Modelled SQLite execution semantics

The Go code hands the built SQL text and the bound string arguments to
SQLite.  We model the fragment the handlers can produce: equality
comparison of a stored value against a text bound parameter (SQLite
applies the column's numeric affinity, converting the parameter text to a
number before comparing with numerically-stored values; decimal float
literals in parameters are outside what the claims exercise), `ORDER BY
<column>` in SQLite's storage-class order (NULL before numbers before
text), and `LIMIT`/`OFFSET` applied after ordering.  Referencing a column
name absent from the table is an engine error (`no such column`). -/

/-- Value of a row at a column. -/
def rowGet (r : Row) (col : String) : DBValue :=
  match r.find? (fun p => p.1 = col) with
  | some p => p.2
  | none => .nullV

/-- SQLite equality of a stored value against a text bound parameter,
under the stored value's affinity: numeric storage compares against the
parameter parsed as an integer, text storage compares byte-wise, NULL
compares equal to nothing. -/
def dbParamEq (v : DBValue) (p : String) : Bool :=
  match v with
  | .intV i => atoi p = some i
  | .floatV q => (atoi p).map (fun i => (i : ℚ)) = some q
  | .bytesV s => s = p
  | .nullV => false

/-- Storage-class rank for SQLite ordering: NULL < numeric < text. -/
def dbRank : DBValue → Nat
  | .nullV => 0
  | .intV _ => 1
  | .floatV _ => 1
  | .bytesV _ => 2

/-- Numeric sort key of a numeric value (0 elsewhere, unused there). -/
def dbKeyNum : DBValue → ℚ
  | .intV i => (i : ℚ)
  | .floatV q => q
  | _ => 0

/-- Text sort key of a text value ("" elsewhere, unused there). -/
def dbKeyStr : DBValue → String
  | .bytesV s => s
  | _ => ""

/-- Lexicographic comparison of character sequences; on UTF-8 encoded
text this coincides with SQLite's BINARY collation (byte-wise memcmp),
since UTF-8 byte order agrees with code-point order. -/
def charListLe : List Char → List Char → Bool
  | [], _ => true
  | _ :: _, [] => false
  | a :: as, b :: bs =>
    if a < b then true
    else if b < a then false
    else charListLe as bs

/-- BINARY-collation comparison of two text values. -/
def strLe (a b : String) : Bool :=
  charListLe a.toList b.toList

/-- SQLite ordering of stored values: by storage class, then numerically
within numbers and byte-wise within text. -/
def dbLe (a b : DBValue) : Bool :=
  if dbRank a < dbRank b then true
  else if dbRank b < dbRank a then false
  else if dbRank a = 1 then dbKeyNum a ≤ dbKeyNum b
  else if dbRank a = 2 then strLe (dbKeyStr a) (dbKeyStr b)
  else true

/-- A row satisfies the WHERE clause when every equality condition holds. -/
def rowMatches (filters : List (String × String)) (r : Row) : Bool :=
  filters.all fun f => dbParamEq (rowGet r f.1) f.2

/-- Lower-case an ASCII letter, leave everything else unchanged (SQLite
keywords and `LIKE` are case-insensitive exactly on ASCII). -/
def lowerAscii (c : Char) : Char :=
  if 'A' ≤ c ∧ c ≤ 'Z' then Char.ofNat (c.toNat + 32) else c

/-- ASCII case folding of a whole string. -/
def lowerAsciiStr (s : String) : String :=
  String.mk (s.toList.map lowerAscii)

/-- Whitespace tokenization of the interpolated ORDER BY text. -/
def splitWordsAux : List Char → List Char → List String
  | [], acc => if acc = [] then [] else [String.mk acc.reverse]
  | c :: cs, acc =>
    if c = ' ' then
      if acc = [] then splitWordsAux cs []
      else String.mk acc.reverse :: splitWordsAux cs []
    else splitWordsAux cs (c :: acc)

def splitWords (s : String) : List String :=
  splitWordsAux s.toList []

/-- The ordering the executed query imposes on the retained rows.  The
handler interpolates the raw `order` parameter into the SQL text, so the
engine parses it as an ordering term: it can carry a direction keyword,
not only a bare column name. -/
inductive OrderBy where
  | noOrder
  | asc (col : String)
  | desc (col : String)
deriving DecidableEq, Repr

/-- Resolve one ORDER BY term token: a bare digit numeral is a 1-based
result-column index (SQLite's positional form), anything else must be a
column name. -/
def resolveOrderColumn (cols : List String) (tok : String) : Option String :=
  if tok.toList ≠ [] ∧ tok.toList.all (fun c => c.isDigit) then
    if 1 ≤ digitsVal tok.toList ∧ digitsVal tok.toList ≤ cols.length then
      cols.get? (digitsVal tok.toList - 1)
    else none
  else if cols.contains tok then some tok
  else none

/-- The engine's parse of the interpolated (non-empty) ORDER BY text.
Modeled fragment: a text that is exactly a column name orders by that
column ascending; otherwise one term token (column name or positional
numeral) optionally followed by an ASC or DESC keyword
(case-insensitive).  Interpolated text outside this fragment (quoted
identifiers, expressions, multiple terms) is mapped to an engine error. -/
def parseOrderBy (cols : List String) (order : String) : Except String OrderBy :=
  if cols.contains order then .ok (.asc order)
  else
    match splitWords order with
    | [tok] =>
      match resolveOrderColumn cols tok with
      | some c => .ok (.asc c)
      | none => .error ("no such column: " ++ tok)
    | [tok, dir] =>
      match resolveOrderColumn cols tok with
      | some c =>
        if lowerAsciiStr dir = "desc" then .ok (.desc c)
        else if lowerAsciiStr dir = "asc" then .ok (.asc c)
        else .error ("near " ++ dir ++ ": syntax error")
      | none => .error ("no such column: " ++ tok)
    | _ => .error ("near " ++ order ++ ": syntax error")

/-- Insert an element into a list so that it lands before the first
element it compares less-or-equal to. -/
def insertSorted (le : Row → Row → Bool) (r : Row) : List Row → List Row
  | [] => [r]
  | x :: xs => if le r x then r :: x :: xs else x :: insertSorted le r xs

/-- Sort rows ascending with respect to `le` (the query result order an
`ORDER BY` produces; any sort agreeing with `le` models it). -/
def sortRows (le : Row → Row → Bool) : List Row → List Row
  | [] => []
  | x :: xs => insertSorted le x (sortRows le xs)

/-- The retained rows in their result order: the rows passing the WHERE
clause, sorted by the parsed ordering term — ascending by default
(`ORDER BY <col>` with no direction is ascending in SQLite), descending
when the interpolated text carries a DESC keyword. -/
def orderedRows (t : DBTable) (filters : List (String × String))
    (ob : OrderBy) : List Row :=
  match ob with
  | .noOrder => t.rows.filter (rowMatches filters)
  | .asc col => sortRows (fun a b => dbLe (rowGet a col) (rowGet b col))
      (t.rows.filter (rowMatches filters))
  | .desc col => sortRows (fun a b => dbLe (rowGet b col) (rowGet a col))
      (t.rows.filter (rowMatches filters))

/-- Execution of the list query built by `handleTableQuery`: reject any
filter condition whose column is not a column of the table, parse the
interpolated ORDER BY text when one is present (its errors are engine
errors), then filter, order and apply offset and limit. -/
def execListQuery (t : DBTable) (filters : List (String × String))
    (order : String) (limit offset : Int) : Except String (List Row) :=
  match filters.find? (fun f => ! (columnNames t.info).contains f.1) with
  | some f => .error ("no such column: " ++ f.1)
  | none =>
    match (if order = "" then Except.ok OrderBy.noOrder
           else parseOrderBy (columnNames t.info) order) with
    | .error e => .error e
    | .ok ob =>
      .ok (((orderedRows t filters ob).drop offset.toNat).take limit.toNat)

/-- Execution of the single-record query `SELECT * FROM t WHERE id = ?`:
an engine error when the table has no column literally named `id`, else
the rows whose `id` column equals the bound path value. -/
def execGetQuery (t : DBTable) (id : String) : Except String (List Row) :=
  if (columnNames t.info).contains "id" then
    .ok (t.rows.filter (fun r => dbParamEq (rowGet r "id") id))
  else
    .error "no such column: id"

/-! ## Row decoding (main.go lines 300-323 and 369-377)

For each row the handler scans every column into an `interface{}`; a
`[]byte` value is converted with `string(b)`, every other native scalar
is stored unchanged into the result map. -/

/-- Decode one native value exactly as the `if b, ok := val.([]byte)`
branch does. -/
def decodeValue : DBValue → JSONValue
  | .bytesV s => .str s
  | .intV i => .num i
  | .floatV q => .fnum q
  | .nullV => .null

/-- One decoded record: the handler's `row` map, given here in the result
set's column order. -/
def decodeRow (cols : List String) (r : Row) : List (String × JSONValue) :=
  cols.map (fun c => (c, decodeValue (rowGet r c)))

/-- The `results` slice of `handleTableQuery`: declared as a nil slice and
only allocated by the first append, so zero decoded rows leave it nil
(serialized as JSON `null`) while any rows make it the list of decoded
records. -/
def decodeResults (cols : List String) (rows : List Row) :
    Option (List (List (String × JSONValue))) :=
  match rows with
  | [] => none
  | _ => some (rows.map (decodeRow cols))

/-! ## Handlers -/

/-- The JSON body of a successful list response (main.go lines 326-331). -/
structure PageResult where
  total : Int
  offset : Int
  limit : Int
  data : Option (List (List (String × JSONValue)))
deriving DecidableEq, Repr

/-- Outcome of `handleTableQuery`: a 200 page or a 500 whose body carries
the engine error text. -/
inductive ListResponse where
  | ok (page : PageResult)
  | serverError (errorBody : String)
deriving DecidableEq, Repr

/-- Outcome of `handleRecordQuery`: a 200 record, a 404, or a 500 whose
body carries the engine error text. -/
inductive RecordResponse where
  | ok (record : List (String × JSONValue))
  | notFound
  | serverError (errorBody : String)
deriving DecidableEq, Repr

/-- `handleTableQuery` (main.go lines 236-333): resolve pagination, run
`SELECT COUNT(*) FROM <table>` (no WHERE clause) for `total`, build and
run the filtered/ordered/paginated query, decode the rows, and answer
with the page; any engine error is answered as a 500 carrying the error
text. -/
def handleTableQuery (t : DBTable) (ps : QueryParams) : ListResponse :=
  match execListQuery t (filterParams ps) (getQueryParam ps "order")
      (effectiveLimit ps) (effectiveOffset ps) with
  | .error e => .serverError e
  | .ok rows =>
    .ok { total := (t.rows.length : Int), offset := effectiveOffset ps,
          limit := effectiveLimit ps,
          data := decodeResults (columnNames t.info) rows }

/-- `handleRecordQuery` (main.go lines 335-381): run
`SELECT * FROM <table> WHERE id = ?` with the path value bound; a 404
when no row comes back, otherwise the first row decoded; any engine error
is answered as a 500 carrying the error text. -/
def handleRecordQuery (t : DBTable) (id : String) : RecordResponse :=
  match execGetQuery t id with
  | .error e => .serverError e
  | .ok [] => .notFound
  | .ok (r :: _) => .ok (decodeRow (columnNames t.info) r)

/-! ## Schema catalog (main.go lines 157-204) -/

/-- One row of `sqlite_master` as far as `loadTableInfo` reads it. -/
structure MasterEntry where
  name : String
  entryType : String
deriving DecidableEq, Repr

/-- The introspectable state of the database at startup: its
`sqlite_master` entries and, per table name, the `PRAGMA table_info`
column rows. -/
structure Database where
  master : List MasterEntry
  tableInfoOf : String → List ColumnInfo

/-- `name LIKE 'sqlite_%'`: in SQLite's LIKE, `_` matches any single
character and `%` any sequence, case-insensitively on ASCII — so the
pattern matches exactly the names with at least 7 characters whose first
6 fold to `sqlite`. -/
def likeSqliteInternal (n : String) : Bool :=
  decide (7 ≤ n.toList.length) && decide ((n.toList.take 6).map lowerAscii = "sqlite".toList)

/-- `loadTableInfo`: every `sqlite_master` row with `type='table'` whose
name does not match `LIKE 'sqlite_%'` becomes one `TableInfo`, its
columns read from `PRAGMA table_info` in the engine's order. -/
def loadTableInfo (db : Database) : List TableInfo :=
  (db.master.filter (fun e => e.entryType = "table" && ! likeSqliteInternal e.name)).map
    (fun e => { name := e.name, columns := db.tableInfoOf e.name })

/-! ## Info route (main.go lines 220-234) -/

/-- The JSON body of `GET /`. -/
structure APIInfo where
  tables : List TableInfo
  endpoints : List String
deriving DecidableEq, Repr

/-- `handleAPIInfo`: the catalog itself plus, per table, the two strings
`GET /<table>` and `GET /<table>/:id`, appended in catalog order to an
initially empty (not nil) slice. -/
def handleAPIInfo (tables : List TableInfo) : APIInfo :=
  { tables := tables,
    endpoints := tables.foldl
      (fun acc t => acc ++ ["GET /" ++ t.name, "GET /" ++ t.name ++ "/:id"]) [] }

/-! ## The spec's concrete scenario

`users(id INTEGER PK, name TEXT, age INTEGER)` with rows `(1,"Ann",30)`
and `(2,"Bo",41)`.  TEXT storage reaches the handler as `[]byte`. -/

def usersInfo : TableInfo :=
  { name := "users",
    columns :=
      [ { name := "id", type := "INTEGER", notNull := false, primaryKey := true },
        { name := "name", type := "TEXT", notNull := false, primaryKey := false },
        { name := "age", type := "INTEGER", notNull := false, primaryKey := false } ] }

def usersTable : DBTable :=
  { info := usersInfo,
    rows :=
      [ [("id", .intV 1), ("name", .bytesV "Ann"), ("age", .intV 30)],
        [("id", .intV 2), ("name", .bytesV "Bo"), ("age", .intV 41)] ] }

/-! ## Helper lemmas -/

theorem atoi_empty : atoi "" = none := rfl

/-- When every filter column and the order column are columns of the
table, the list query executes without an engine error. -/
theorem execListQuery_ok (t : DBTable) (filters : List (String × String))
    (order : String) (limit offset : Int)
    (hf : filters.all (fun f => (columnNames t.info).contains f.1) = true)
    (ho : order = "" ∨ (columnNames t.info).contains order = true) :
    ∃ rows, execListQuery t filters order limit offset = .ok rows := by
  unfold execListQuery
  have hfind : filters.find? (fun f => ! (columnNames t.info).contains f.1) = none := by
    rw [List.find?_eq_none]
    intro f hfmem
    have := List.all_eq_true.mp hf f hfmem
    simpa using this
  rw [hfind]
  by_cases he : order = ""
  · rw [if_pos he]
    exact ⟨_, rfl⟩
  · rw [if_neg he]
    have ho' : (columnNames t.info).contains order = true := by
      rcases ho with ho | ho
      · exact absurd ho he
      · exact ho
    unfold parseOrderBy
    rw [if_pos ho']
    exact ⟨_, rfl⟩

/-- In a pair list whose keys are distinct, filtering on the key of a
member yields exactly that member. -/
theorem filter_key_of_nodup {l : List (String × String)} {k v : String}
    (hnd : (l.map Prod.fst).Nodup) (hmem : (k, v) ∈ l) :
    l.filter (fun f => f.1 = k) = [(k, v)] := by
  induction l with
  | nil => cases hmem
  | cons p rest ih =>
    rw [List.map_cons, List.nodup_cons] at hnd
    rcases List.mem_cons.mp hmem with h | h
    · subst h
      have hrest : rest.filter (fun f => f.1 = k) = [] := by
        rw [List.filter_eq_nil_iff]
        intro q hq
        have hq1 : q.1 ∈ rest.map Prod.fst := List.mem_map.mpr ⟨q, hq, rfl⟩
        intro hqk
        apply hnd.1
        rw [← (by exact of_decide_eq_true hqk : q.1 = k)]
        exact hq1
      rw [List.filter_cons, if_pos (by simp), hrest]
    · have hpk : p.1 ≠ k := by
        intro hpk
        apply hnd.1
        rw [hpk]
        exact List.mem_map.mpr ⟨(k, v), h, rfl⟩
      rw [List.filter_cons, if_neg (by simp [hpk])]
      exact ih hnd.2 h

/-- The filter keys are drawn from the raw parameter keys in order. -/
theorem filterParams_keys_sublist (ps : QueryParams) :
    List.Sublist ((filterParams ps).map Prod.fst) (ps.map Prod.fst) := by
  induction ps with
  | nil => simp [filterParams]
  | cons p rest ih =>
    rw [filterParams, List.filterMap_cons]
    by_cases hr : p.1 = "limit" ∨ p.1 = "offset" ∨ p.1 = "order"
    · rw [if_pos hr, List.map_cons]
      exact (by exact ih : List.Sublist _ _).trans (List.sublist_cons_self _ _)
    · rw [if_neg hr]
      cases hv : p.2 with
      | nil =>
        rw [List.map_cons]
        exact (by exact ih : List.Sublist _ _).trans (List.sublist_cons_self _ _)
      | cons v vt =>
        rw [List.map_cons, List.map_cons]
        exact List.Sublist.cons₂ p.1 ih

theorem charListLe_total : ∀ (a b : List Char), (charListLe a b || charListLe b a) = true
  | [], _ => by simp [charListLe]
  | _ :: _, [] => by simp [charListLe]
  | a :: as, b :: bs => by
    by_cases hab : a < b
    · simp [charListLe, hab]
    · by_cases hba : b < a
      · simp [charListLe, hab, hba]
      · simpa [charListLe, hab, hba] using charListLe_total as bs

theorem charListLe_trans : ∀ (a b c : List Char),
    charListLe a b = true → charListLe b c = true → charListLe a c = true
  | [], _, _, _, _ => rfl
  | x :: xs, [], _, hab, _ => by simp [charListLe] at hab
  | _ :: _, _ :: _, [], _, hbc => by simp [charListLe] at hbc
  | x :: xs, y :: ys, z :: zs, hab, hbc => by
    by_cases hxy : x < y
    · by_cases hyz : y < z
      · simp [charListLe, lt_trans hxy hyz]
      · by_cases hzy : z < y
        · rw [charListLe, if_neg hyz, if_pos hzy] at hbc
          exact absurd hbc (by simp)
        · have hyz' : y = z := le_antisymm (not_lt.mp hzy) (not_lt.mp hyz)
          subst hyz'
          simp [charListLe, hxy]
    · by_cases hyx : y < x
      · rw [charListLe, if_neg hxy, if_pos hyx] at hab
        exact absurd hab (by simp)
      · have hxy' : x = y := le_antisymm (not_lt.mp hyx) (not_lt.mp hxy)
        subst hxy'
        rw [charListLe, if_neg hxy, if_neg hyx] at hab
        by_cases hyz : x < z
        · simp [charListLe, hyz]
        · by_cases hzy : z < x
          · rw [charListLe, if_neg hyz, if_pos hzy] at hbc
            exact absurd hbc (by simp)
          · rw [charListLe, if_neg hyz, if_neg hzy] at hbc ⊢
            exact charListLe_trans xs ys zs hab hbc

theorem dbLe_total (a b : DBValue) : (dbLe a b || dbLe b a) = true := by
  cases a <;> cases b <;>
    simp [dbLe, dbRank, dbKeyNum, dbKeyStr, strLe] <;>
    first
    | exact le_total _ _
    | exact charListLe_total _ _
    | simpa using charListLe_total _ _

theorem dbLe_trans (a b c : DBValue) (hab : dbLe a b = true) (hbc : dbLe b c = true) :
    dbLe a c = true := by
  cases a <;> cases b <;> cases c <;>
    simp_all [dbLe, dbRank, dbKeyNum, dbKeyStr, strLe] <;>
    first
    | exact le_trans hab hbc
    | (qify at hab hbc ⊢; exact le_trans hab hbc)
    | exact charListLe_trans _ _ _ hab hbc

theorem mem_insertSorted (le : Row → Row → Bool) (r : Row) (l : List Row) (y : Row)
    (h : y ∈ insertSorted le r l) : y = r ∨ y ∈ l := by
  induction l with
  | nil => simpa [insertSorted] using h
  | cons x xs ih =>
    rw [insertSorted] at h
    by_cases hc : le r x = true
    · simp only [hc, if_true] at h
      rcases List.mem_cons.mp h with h | h
      · exact Or.inl h
      · exact Or.inr h
    · simp only [hc, if_false, Bool.false_eq_true] at h
      rcases List.mem_cons.mp h with h | h
      · exact Or.inr (List.mem_cons.mpr (Or.inl h))
      · rcases ih h with h | h
        · exact Or.inl h
        · exact Or.inr (List.mem_cons.mpr (Or.inr h))

theorem pairwise_insertSorted (le : Row → Row → Bool)
    (htot : ∀ a b, (le a b || le b a) = true)
    (htrans : ∀ a b c, le a b = true → le b c = true → le a c = true)
    (r : Row) (l : List Row) (hl : l.Pairwise (fun a b => le a b = true)) :
    (insertSorted le r l).Pairwise (fun a b => le a b = true) := by
  induction l with
  | nil => simp [insertSorted]
  | cons x xs ih =>
    rw [List.pairwise_cons] at hl
    rw [insertSorted]
    by_cases hc : le r x = true
    · simp only [hc, if_true]
      rw [List.pairwise_cons]
      refine ⟨?_, List.pairwise_cons.mpr ⟨hl.1, hl.2⟩⟩
      intro y hy
      rcases List.mem_cons.mp hy with h | h
      · subst h; exact hc
      · exact htrans r x y hc (hl.1 y h)
    · have hxr : le x r = true := by
        have h2 := htot r x
        rcases Bool.or_eq_true_iff.mp h2 with h2 | h2
        · exact absurd h2 hc
        · exact h2
      simp only [hc, if_false, Bool.false_eq_true]
      rw [List.pairwise_cons]
      refine ⟨?_, ih hl.2⟩
      intro y hy
      rcases mem_insertSorted le r xs y hy with h | h
      · subst h; exact hxr
      · exact hl.1 y h

theorem pairwise_sortRows (le : Row → Row → Bool)
    (htot : ∀ a b, (le a b || le b a) = true)
    (htrans : ∀ a b c, le a b = true → le b c = true → le a c = true)
    (l : List Row) : (sortRows le l).Pairwise (fun a b => le a b = true) := by
  induction l with
  | nil => simp [sortRows]
  | cons x xs ih =>
    rw [sortRows]
    exact pairwise_insertSorted le htot htrans x _ ih

/-- A parameter key that is not reserved and carries at least one value
appears among the filters, bound to its first value. -/
theorem mem_filterParams {ps : QueryParams} {k v : String} {vs : List String}
    (hmem : (k, v :: vs) ∈ ps)
    (h1 : k ≠ "limit") (h2 : k ≠ "offset") (h3 : k ≠ "order") :
    (k, v) ∈ filterParams ps := by
  unfold filterParams
  exact List.mem_filterMap.mpr ⟨(k, v :: vs), hmem, by simp [h1, h2, h3]⟩

/-! ## Claim theorems -/

/-- C3: the effective limit is 100 unless the supplied `limit` parses as
a positive integer (then that value is used), the effective offset is 0
unless the supplied `offset` parses as a non-negative integer, and every
unparseable or out-of-range value is substituted silently: with valid
filter and order columns the request still succeeds, surfacing no
error. -/
theorem pagination_defaults (ps : QueryParams) :
    (∀ l : Int, atoi (getQueryParam ps "limit") = some l → 0 < l →
      effectiveLimit ps = l) ∧
    (atoi (getQueryParam ps "limit") = none → effectiveLimit ps = 100) ∧
    (∀ l : Int, atoi (getQueryParam ps "limit") = some l → l ≤ 0 →
      effectiveLimit ps = 100) ∧
    (∀ o : Int, atoi (getQueryParam ps "offset") = some o → 0 ≤ o →
      effectiveOffset ps = o) ∧
    (atoi (getQueryParam ps "offset") = none → effectiveOffset ps = 0) ∧
    (∀ o : Int, atoi (getQueryParam ps "offset") = some o → o < 0 →
      effectiveOffset ps = 0) ∧
    (∀ t : DBTable,
      ((filterParams ps).all (fun f => (columnNames t.info).contains f.1)) = true →
      (getQueryParam ps "order" = "" ∨
        (columnNames t.info).contains (getQueryParam ps "order") = true) →
      ∃ page : PageResult, handleTableQuery t ps = .ok page) := by
  refine ⟨?_, ?_, ?_, ?_, ?_, ?_, ?_⟩
  · intro l h hl
    by_cases hs : getQueryParam ps "limit" = ""
    · rw [hs, atoi_empty] at h; cases h
    · simp [effectiveLimit, hs, h, hl]
  · intro h
    by_cases hs : getQueryParam ps "limit" = ""
    · simp [effectiveLimit, hs]
    · simp [effectiveLimit, hs, h]
  · intro l h hl
    have hl' : ¬ 0 < l := not_lt.mpr hl
    by_cases hs : getQueryParam ps "limit" = ""
    · simp [effectiveLimit, hs]
    · simp [effectiveLimit, hs, h, hl']
  · intro o h ho
    by_cases hs : getQueryParam ps "offset" = ""
    · rw [hs, atoi_empty] at h; cases h
    · simp [effectiveOffset, hs, h, ho]
  · intro h
    by_cases hs : getQueryParam ps "offset" = ""
    · simp [effectiveOffset, hs]
    · simp [effectiveOffset, hs, h]
  · intro o h ho
    have ho' : ¬ 0 ≤ o := not_le.mpr ho
    by_cases hs : getQueryParam ps "offset" = ""
    · simp [effectiveOffset, hs]
    · simp [effectiveOffset, hs, h, ho']
  · intro t hf ho
    obtain ⟨rows, hrows⟩ := execListQuery_ok t (filterParams ps)
      (getQueryParam ps "order") (effectiveLimit ps) (effectiveOffset ps) hf ho
    refine ⟨{ total := (t.rows.length : Int), offset := effectiveOffset ps,
              limit := effectiveLimit ps,
              data := decodeResults (columnNames t.info) rows }, ?_⟩
    unfold handleTableQuery
    rw [hrows]

theorem pagination_defaults_witness :
    effectiveLimit [("limit", ["abc"]), ("offset", ["-3"])] = 100 ∧
    effectiveOffset [("limit", ["abc"]), ("offset", ["-3"])] = 0 ∧
    effectiveLimit [("limit", ["7"]), ("offset", ["2"])] = 7 ∧
    effectiveOffset [("limit", ["7"]), ("offset", ["2"])] = 2 ∧
    ∃ page : PageResult,
      handleTableQuery usersTable [("limit", ["abc"]), ("offset", ["-3"])] = .ok page :=
  ⟨(pagination_defaults _).2.1 (by decide),
   (pagination_defaults _).2.2.2.2.2.1 (-3) (by decide) (by decide),
   (pagination_defaults _).1 7 (by decide) (by decide),
   (pagination_defaults _).2.2.2.1 2 (by decide) (by decide),
   (pagination_defaults _).2.2.2.2.2.2 usersTable (by decide) (Or.inl (by decide))⟩

/-- C2: every raw query key other than `limit`, `offset`, `order`
contributes exactly one `column = ?` equality condition, with the key's
first value bound as a query argument instead of interpolated; the
conditions are joined with AND and there is no other predicate form. -/
theorem filter_construction (ps : QueryParams)
    (hnd : (ps.map Prod.fst).Nodup)
    (k v : String) (vs : List String) (hmem : (k, v :: vs) ∈ ps)
    (h1 : k ≠ "limit") (h2 : k ≠ "offset") (h3 : k ≠ "order") :
    (k, v) ∈ filterParams ps ∧
    (filterParams ps).filter (fun f => f.1 = k) = [(k, v)] ∧
    whereConditions ps = (filterParams ps).map (fun f => f.1 ++ " = ?") ∧
    queryArgs ps = (filterParams ps).map (fun f => f.2) ∧
    (whereConditions ps = [] → whereClause ps = "") ∧
    (whereConditions ps ≠ [] →
      whereClause ps = " WHERE " ++ String.intercalate " AND " (whereConditions ps)) := by
  have hk := mem_filterParams hmem h1 h2 h3
  have hnd' : ((filterParams ps).map Prod.fst).Nodup :=
    hnd.sublist (filterParams_keys_sublist ps)
  refine ⟨hk, filter_key_of_nodup hnd' hk, rfl, rfl, ?_, ?_⟩
  · intro h; simp [whereClause, h]
  · intro h; simp [whereClause, h]

theorem filter_construction_witness :
    (filterParams [("age", ["41", "52"]), ("limit", ["5"])]).filter
        (fun f => f.1 = "age") = [("age", "41")] ∧
    whereClause [("age", ["41", "52"]), ("limit", ["5"])] =
      " WHERE " ++ String.intercalate " AND "
        (whereConditions [("age", ["41", "52"]), ("limit", ["5"])]) :=
  ⟨(filter_construction _ (by decide) "age" "41" ["52"] (by decide)
      (by decide) (by decide) (by decide)).2.1,
   (filter_construction _ (by decide) "age" "41" ["52"] (by decide)
      (by decide) (by decide) (by decide)).2.2.2.2.2 (by decide)⟩

/-- C1 counterexample: on `users` with rows (1,"Ann",30) and (2,"Bo",41),
GET /users?age=41 answers `total = 2` — the whole table's row count,
because the count query `SELECT COUNT(*) FROM users` carries no WHERE
clause — while the claim demands `total = 1`, the filtered count. -/
theorem total_counts_all_rows_counterexample :
    handleTableQuery usersTable [("age", ["41"])] =
      .ok { total := 2, offset := 0, limit := 100,
            data := some [[("id", .num 2), ("name", .str "Bo"), ("age", .num 41)]] } ∧
    (2 : Int) ≠ 1 :=
  ⟨rfl, by decide⟩

/-- C1 amended: for every list request, the `total` field of a
successful response equals the count of ALL rows of the table, ignoring
the request's equality filters as well as pagination; in particular
GET /users?age=41 on the users table returns total = 2. -/
theorem total_counts_all_rows (t : DBTable) (ps : QueryParams) (page : PageResult)
    (h : handleTableQuery t ps = .ok page) :
    page.total = (t.rows.length : Int) := by
  unfold handleTableQuery at h
  cases hexec : execListQuery t (filterParams ps) (getQueryParam ps "order")
      (effectiveLimit ps) (effectiveOffset ps) with
  | error e => rw [hexec] at h; cases h
  | ok rows =>
    rw [hexec] at h
    cases h
    rfl

theorem total_counts_all_rows_witness :
    ({ total := 2, offset := 0, limit := 100,
       data := some [[("id", JSONValue.num 2), ("name", JSONValue.str "Bo"),
                      ("age", JSONValue.num 41)]] } : PageResult).total =
      ((usersTable.rows.length : Int)) :=
  total_counts_all_rows usersTable [("age", ["41"])] _ rfl

/-- C4: the single-record query filters on the column literally named
`id` with the path value bound as a query argument; zero matching rows
answer not-found, otherwise the first matching row is returned as a
single flat record; and the outcome is independent of which column
carries the primary-key flag, since the handler reads only column names
and rows. -/
theorem record_lookup (t : DBTable) (id : String)
    (hid : (columnNames t.info).contains "id" = true) :
    (t.rows.filter (fun r => dbParamEq (rowGet r "id") id) = [] →
      handleRecordQuery t id = .notFound) ∧
    (∀ (r : Row) (rest : List Row),
      t.rows.filter (fun r => dbParamEq (rowGet r "id") id) = r :: rest →
      handleRecordQuery t id = .ok (decodeRow (columnNames t.info) r)) ∧
    (∀ t' : DBTable, columnNames t'.info = columnNames t.info → t'.rows = t.rows →
      handleRecordQuery t' id = handleRecordQuery t id) ∧
    recordQuerySQL t.info.name = "SELECT * FROM " ++ t.info.name ++ " WHERE id = ?" := by
  have hidmem : "id" ∈ columnNames t.info := by simpa using hid
  refine ⟨?_, ?_, ?_, rfl⟩
  · intro h
    simp [handleRecordQuery, execGetQuery, hidmem, h]
  · intro r rest h
    simp [handleRecordQuery, execGetQuery, hidmem, h]
  · intro t' h1 h2
    simp only [handleRecordQuery, execGetQuery, h1, h2]

theorem record_lookup_witness :
    handleRecordQuery usersTable "999" = .notFound ∧
    handleRecordQuery usersTable "1" = .ok (decodeRow (columnNames usersTable.info)
      [("id", DBValue.intV 1), ("name", DBValue.bytesV "Ann"), ("age", DBValue.intV 30)]) :=
  ⟨(record_lookup usersTable "999" (by decide)).1 (by decide),
   (record_lookup usersTable "1" (by decide)).2.1 _ [] (by decide)⟩

/-- C5 counterexample: the raw `order` text is interpolated into the SQL
(`" ORDER BY %s"`), so GET /users?order=age+DESC builds
`ORDER BY age DESC`, which executes successfully and returns the rows
sorted by `age` DESCENDING — Bo (age 41) before Ann (age 30) — while the
claim demands ascending order only: the first returned row's order-column
value 41 does not compare ≤ the second's 30. -/
theorem order_raw_text_interpolated_counterexample :
    handleTableQuery usersTable [("order", ["age DESC"])] =
      .ok { total := 2, offset := 0, limit := 100,
            data := some [[("id", .num 2), ("name", .str "Bo"), ("age", .num 41)],
                          [("id", .num 1), ("name", .str "Ann"), ("age", .num 30)]] } ∧
    dbLe (DBValue.intV 41) (DBValue.intV 30) = false :=
  ⟨rfl, by decide⟩

/-- C5 amended: when the non-empty `order` parameter is literally a
column name of the table, the rows of a successful list response are
sorted by that column in ascending order; since the raw text is
interpolated into the SQL, an order parameter carrying a direction
keyword such as `age DESC` executes and sorts descending instead; the
concrete scenario still holds: GET /users?order=name&limit=1 returns
exactly the alphabetically-first row by `name`. -/
theorem order_ascending_on_column_name (t : DBTable) (ps : QueryParams)
    (rows : List Row)
    (hne : getQueryParam ps "order" ≠ "")
    (hcol : (columnNames t.info).contains (getQueryParam ps "order") = true)
    (hexec : execListQuery t (filterParams ps) (getQueryParam ps "order")
      (effectiveLimit ps) (effectiveOffset ps) = .ok rows) :
    rows.Pairwise (fun a b =>
      dbLe (rowGet a (getQueryParam ps "order"))
        (rowGet b (getQueryParam ps "order")) = true) ∧
    handleTableQuery usersTable [("order", ["name"]), ("limit", ["1"])] =
      .ok { total := 2, offset := 0, limit := 1,
            data := some [[("id", .num 1), ("name", .str "Ann"), ("age", .num 30)]] } := by
  refine ⟨?_, rfl⟩
  unfold execListQuery at hexec
  cases hfind : (filterParams ps).find?
      (fun f => ! (columnNames t.info).contains f.1) with
  | some f => rw [hfind] at hexec; cases hexec
  | none =>
    rw [hfind, if_neg hne] at hexec
    unfold parseOrderBy at hexec
    rw [if_pos hcol] at hexec
    have hrows := Except.ok.inj hexec
    have hsorted : (orderedRows t (filterParams ps)
        (OrderBy.asc (getQueryParam ps "order"))).Pairwise (fun a b =>
          dbLe (rowGet a (getQueryParam ps "order"))
            (rowGet b (getQueryParam ps "order")) = true) :=
      pairwise_sortRows
        (fun a b => dbLe (rowGet a (getQueryParam ps "order"))
          (rowGet b (getQueryParam ps "order")))
        (fun a b => dbLe_total _ _)
        (fun a b c hab hbc => dbLe_trans _ _ _ hab hbc) _
    rw [← hrows]
    exact hsorted.sublist ((List.take_sublist _ _).trans (List.drop_sublist _ _))

theorem order_ascending_on_column_name_witness :
    ([[("id", DBValue.intV 1), ("name", DBValue.bytesV "Ann"), ("age", DBValue.intV 30)],
      [("id", DBValue.intV 2), ("name", DBValue.bytesV "Bo"), ("age", DBValue.intV 41)]]
        : List Row).Pairwise
      (fun a b => dbLe (rowGet a (getQueryParam [("order", ["name"])] "order"))
        (rowGet b (getQueryParam [("order", ["name"])] "order")) = true) :=
  (order_ascending_on_column_name usersTable [("order", ["name"])] _
    (by decide) (by decide) rfl).1

/-- C6: each decoded column value is the native value normalized exactly
as the scan loop does: a byte-slice value becomes a textual string, and
integer, floating-point and null values pass through unchanged, with no
coercion against the declared column type. -/
theorem decode_normalization (cols : List String) (r : Row) (c : String)
    (jv : JSONValue) (hmem : (c, jv) ∈ decodeRow cols r) :
    jv = decodeValue (rowGet r c) ∧
    (∀ s, decodeValue (.bytesV s) = .str s) ∧
    (∀ i, decodeValue (.intV i) = .num i) ∧
    (∀ q, decodeValue (.floatV q) = .fnum q) ∧
    decodeValue .nullV = .null := by
  refine ⟨?_, fun s => rfl, fun i => rfl, fun q => rfl, rfl⟩
  unfold decodeRow at hmem
  rcases List.mem_map.mp hmem with ⟨c', hc', heq⟩
  injection heq with hfst hsnd
  subst hfst
  exact hsnd.symm

theorem decode_normalization_witness :
    JSONValue.str "Bo" = decodeValue (rowGet
      [("id", DBValue.intV 2), ("name", DBValue.bytesV "Bo"), ("age", DBValue.intV 41)]
      "name") :=
  (decode_normalization (columnNames usersInfo)
    [("id", DBValue.intV 2), ("name", DBValue.bytesV "Bo"), ("age", DBValue.intV 41)]
    "name" (JSONValue.str "Bo") (by decide)).1

/-- C7: an engine-level failure of the list query or of the single-record
lookup is never swallowed: the handler answers a server error whose body
is exactly the engine's error text, and the query is issued once (the
response is a pure function of that single execution). -/
theorem engine_errors_propagate :
    (∀ (t : DBTable) (ps : QueryParams) (e : String),
      execListQuery t (filterParams ps) (getQueryParam ps "order")
        (effectiveLimit ps) (effectiveOffset ps) = .error e →
      handleTableQuery t ps = .serverError e) ∧
    (∀ (t : DBTable) (id e : String),
      execGetQuery t id = .error e → handleRecordQuery t id = .serverError e) := by
  constructor
  · intro t ps e h
    unfold handleTableQuery
    rw [h]
  · intro t id e h
    unfold handleRecordQuery
    rw [h]

theorem engine_errors_propagate_witness :
    handleTableQuery usersTable [("bogus", ["1"])] =
      .serverError "no such column: bogus" :=
  engine_errors_propagate.1 usersTable [("bogus", ["1"])] "no such column: bogus" rfl

/-- A name starting with `sqlite_` matches the catalog query's
`LIKE 'sqlite_%'` exclusion pattern. -/
theorem likeSqliteInternal_of_prefix (n : String)
    (h : "sqlite_".toList.isPrefixOf n.toList = true) :
    likeSqliteInternal n = true := by
  rw [List.isPrefixOf_iff_prefix] at h
  obtain ⟨rest, hrest⟩ := h
  unfold likeSqliteInternal
  rw [Bool.and_eq_true]
  constructor
  · rw [decide_eq_true_iff, ← hrest, List.length_append]
    have h7 : ("sqlite_".toList).length = 7 := rfl
    omega
  · rw [decide_eq_true_iff, ← hrest,
      List.take_append_of_le_length (by decide)]
    decide

/-- C8: the catalog built at startup contains no table whose name starts
with the engine's reserved prefix `sqlite_`; the catalog is a pure value
built once (the source appends to it only inside `loadTableInfo`), so
the exclusion holds for the process lifetime. -/
theorem catalog_excludes_internal (db : Database) (t : TableInfo)
    (hmem : t ∈ loadTableInfo db) :
    "sqlite_".toList.isPrefixOf t.name.toList = false := by
  unfold loadTableInfo at hmem
  rcases List.mem_map.mp hmem with ⟨e, he, rfl⟩
  have hf := List.of_mem_filter he
  rw [Bool.and_eq_true] at hf
  by_contra hcon
  rw [Bool.not_eq_false] at hcon
  have hlike := likeSqliteInternal_of_prefix e.name hcon
  rw [hlike] at hf
  exact absurd hf.2 (by decide)

/-- A sample introspectable database: one user table and one reserved
internal table. -/
def sampleDB : Database :=
  { master := [{ name := "users", entryType := "table" },
               { name := "sqlite_sequence", entryType := "table" }],
    tableInfoOf := fun _ => [] }

theorem catalog_excludes_internal_witness :
    "sqlite_".toList.isPrefixOf (String.toList "users") = false :=
  catalog_excludes_internal sampleDB { name := "users", columns := [] }
    (by simp [loadTableInfo, sampleDB, likeSqliteInternal, lowerAscii])

/-- The endpoint accumulation of `handleAPIInfo` unfolded. -/
theorem endpoints_foldl (tables : List TableInfo) (acc : List String) :
    tables.foldl
      (fun acc t => acc ++ ["GET /" ++ t.name, "GET /" ++ t.name ++ "/:id"]) acc =
    acc ++ tables.flatMap
      (fun t => ["GET /" ++ t.name, "GET /" ++ t.name ++ "/:id"]) := by
  induction tables generalizing acc with
  | nil => simp
  | cons t ts ih => simp [List.foldl_cons, ih]

/-- C9: the info route returns the full catalog together with exactly the
two endpoint strings `GET /<table>` and `GET /<table>/:id` per table, in
catalog order, as a pure function of the catalog; on the users schema the
response holds one table descriptor with three column descriptors and the
endpoints GET /users and GET /users/:id. -/
theorem info_route (tables : List TableInfo) :
    (handleAPIInfo tables).tables = tables ∧
    (handleAPIInfo tables).endpoints =
      tables.flatMap (fun t => ["GET /" ++ t.name, "GET /" ++ t.name ++ "/:id"]) ∧
    (handleAPIInfo tables).endpoints.length = 2 * tables.length ∧
    handleAPIInfo [usersInfo] =
      { tables := [usersInfo], endpoints := ["GET /users", "GET /users/:id"] } ∧
    usersInfo.columns.length = 3 := by
  refine ⟨rfl, ?_, ?_, rfl, rfl⟩
  · unfold handleAPIInfo
    rw [endpoints_foldl]
    rfl
  · unfold handleAPIInfo
    rw [endpoints_foldl]
    simp [List.length_flatMap, List.map_map]
    induction tables with
    | nil => simp
    | cons t ts ih => simp [ih]; ring

/-- C10: a list query whose execution matches zero rows answers
successfully with `data` equal to the never-allocated nil slice
(serialized as JSON null, not an empty array), while total, offset and
limit are still present. -/
theorem empty_result_data_null (t : DBTable) (ps : QueryParams)
    (h : execListQuery t (filterParams ps) (getQueryParam ps "order")
      (effectiveLimit ps) (effectiveOffset ps) = .ok []) :
    handleTableQuery t ps =
      .ok { total := (t.rows.length : Int), offset := effectiveOffset ps,
            limit := effectiveLimit ps, data := none } := by
  unfold handleTableQuery
  rw [h]
  rfl

theorem empty_result_data_null_witness :
    handleTableQuery usersTable [("age", ["99"])] =
      .ok { total := 2, offset := 0, limit := 100, data := none } :=
  empty_result_data_null usersTable [("age", ["99"])] rfl

end SqliteRest
